import Mathlib

/-!
Shallow embedding of three parts of a browser-hosted code-editor widget:

* `GetHover`   — `src/vs/editor/contrib/hover/getHover.ts`: the hover-tooltip
  aggregation routine `getHover`, which fans out `provideHover` calls over the
  providers of `HoverProviderRegistry.ordered(model)`, filters the settled
  results and coalesces them.
* `Cursor`     — `src/vs/editor/common/controller/oneCursor.ts`, `OneCursor`:
  synchronization of a model-coordinate and a view-coordinate cursor state
  through `_setState`.
* `QuickOpen`  — the `QuickOpenController` of the same file: the quick-open
  widget life cycle (`run`, its `onClose` closure) and the single
  range-highlight decoration (`decorateLine`, `clearDecorations`).

Promises are embedded as `Except`: a settled promise either resolved (`ok`)
or rejected (`error`).  Mutable fields become explicit state records.
-/

namespace GetHover

/-- The `Hover` shape consumed by `getHover`: the `range` field and the
`contents` field may each be absent (`undefined`/`null` in the source), and
`contents`, when present, is an array whose `length` is tested. -/
structure Hover (ρ κ : Type) where
  range : Option ρ
  contents : Option (List κ)
deriving DecidableEq

/-- A hover provider: `provideHover(model, position, token)` settles either
with a hover value — or with `null`/`undefined`, i.e. `none` — or rejects
with an error. -/
structure HoverProvider (μ π ρ κ ε : Type) where
  provideHover : μ → π → Except ε (Option (Hover ρ κ))

/-- The validity test on a (truthy) hover value: `hasRange` — the `range`
field is not `undefined` — and `hasHtmlContent` — the `contents` field is
defined, truthy, and of positive length (lines 27-28). -/
def keepHover (r : Hover ρ κ) : Bool :=
  let hasRange : Bool := r.range.isSome
  let hasHtmlContent : Bool :=
    match r.contents with
    | none => false
    | some cs => decide (0 < cs.length)
  hasRange && hasHtmlContent

/-- The filter of `getHover` (lines 26-31): the settled `result` must be
truthy and pass the validity test; only then is it written into
`values[idx]`. -/
def keepResult (result : Option (Hover ρ κ)) : Option (Hover ρ κ) :=
  match result with
  | none => none
  | some r => if keepHover r then some r else none

/-- Settlement of one provider promise after the attached handlers ran: on
success the validity filter decides what lands in `values[idx]`; on rejection
the error is routed to `onUnexpectedExternalError` and the handler returns
normally, so the per-provider promise resolves carrying no value. -/
def settleProvider (outcome : Except ε (Option (Hover ρ κ))) :
    Except ε (Option (Hover ρ κ)) :=
  match outcome with
  | Except.ok result => Except.ok (keepResult result)
  | Except.error _ => Except.ok none

/-- What a settled provider contributes to the `values` array: the filtered
result on success, nothing on rejection. -/
def collectOutcome (outcome : Except ε (Option (Hover ρ κ))) :
    Option (Hover ρ κ) :=
  match outcome with
  | Except.ok result => keepResult result
  | Except.error _ => none

/-- The hover value a provider produced, before any filtering (used to state
what "the providers returned"). -/
def producedHover (outcome : Except ε (Option (Hover ρ κ))) :
    Option (Hover ρ κ) :=
  match outcome with
  | Except.ok (some h) => some h
  | Except.ok none => none
  | Except.error _ => none

/-- `TPromise.join`: resolves with the list of values when every joined
promise resolves, rejects as soon as one rejects. -/
def joinPromises : List (Except ε α) → Except ε (List α)
  | [] => Except.ok []
  | p :: ps =>
    match p with
    | Except.error e => Except.error e
    | Except.ok a =>
      match joinPromises ps with
      | Except.error e => Except.error e
      | Except.ok as => Except.ok (a :: as)

/-- `coalesce` from `vs/base/common/arrays`: drops the `undefined`/`null`
slots of a sparse array. -/
def coalesce (values : List (Option α)) : List α :=
  values.filterMap id

/-- The arguments of one `provideHover` invocation. -/
structure HoverCall (μ π : Type) where
  model : μ
  callPosition : π
deriving DecidableEq

/-- The fan-out of `getHover`: `supports.map((support, idx) => ...)` issues,
for each provider of `HoverProviderRegistry.ordered(model)` in registry
order, exactly one `provideHover(model, position)` call; each list entry
records the call's arguments and its outcome. -/
def hoverFanOut (ordered : μ → List (HoverProvider μ π ρ κ ε))
    (model : μ) (pos : π) :
    List (HoverCall μ π × Except ε (Option (Hover ρ κ))) :=
  (ordered model).map
    (fun support => (⟨model, pos⟩, support.provideHover model pos))

/-- The per-provider outcomes of the fan-out, in registry order. -/
def hoverOutcomes (ordered : μ → List (HoverProvider μ π ρ κ ε))
    (model : μ) (pos : π) : List (Except ε (Option (Hover ρ κ))) :=
  (hoverFanOut ordered model pos).map Prod.snd

/-- The `values` sparse array once every provider promise has settled:
slot `idx` holds what provider `idx` contributed. -/
def hoverValues (ordered : μ → List (HoverProvider μ π ρ κ ε))
    (model : μ) (pos : π) : List (Option (Hover ρ κ)) :=
  (hoverOutcomes ordered model pos).map collectOutcome

/-- The value `getHover(model, position)` resolves with:
`TPromise.join(promises).then(() => coalesce(values))`. -/
def getHover (ordered : μ → List (HoverProvider μ π ρ κ ε))
    (model : μ) (pos : π) : List (Hover ρ κ) :=
  coalesce (hoverValues ordered model pos)

/-- The promise returned by `getHover`, settlement behaviour included: join
the per-provider promises (each already carrying its success and error
handler), then coalesce the `values` array. -/
def getHoverP (ordered : μ → List (HoverProvider μ π ρ κ ε))
    (model : μ) (pos : π) : Except ε (List (Hover ρ κ)) :=
  match joinPromises ((hoverOutcomes ordered model pos).map settleProvider) with
  | Except.ok _ => Except.ok (getHover ordered model pos)
  | Except.error e => Except.error e

/-- `getHover` over an explicit provider list (the value of
`HoverProviderRegistry.ordered(model)`), used to speak about what the
remaining providers alone would produce. -/
def getHoverOf (supports : List (HoverProvider μ π ρ κ ε))
    (model : μ) (pos : π) : List (Hover ρ κ) :=
  coalesce (supports.map (fun support =>
    collectOutcome (support.provideHover model pos)))

/-- One settlement event of the fan-out: the continuation of promise `idx`
writes provider `idx`'s contribution into `values[idx]`; an index with no
promise writes nothing. -/
def applySettlement (outcomes : List (Except ε (Option (Hover ρ κ))))
    (values : List (Option (Hover ρ κ))) (idx : Nat) :
    List (Option (Hover ρ κ)) :=
  match outcomes[idx]? with
  | some o => values.set idx (collectOutcome o)
  | none => values

/-- Run the provider settlements in an arbitrary interleaving `order` over
the initially empty sparse `values` array, then coalesce — the read happens
only after `TPromise.join` saw every promise settle. -/
def runSchedule (ordered : μ → List (HoverProvider μ π ρ κ ε))
    (model : μ) (pos : π) (order : List Nat) : List (Hover ρ κ) :=
  let outcomes := hoverOutcomes ordered model pos
  coalesce (order.foldl (applySettlement outcomes)
    (List.replicate outcomes.length none))

/-- A hover value that passes the validity test. -/
def exHover : Hover Nat Nat := ⟨some 1, some [2]⟩

/-- A hover value whose `contents` field is `undefined`. -/
def exHoverNoContents : Hover Nat Nat := ⟨some 1, none⟩

/-- A provider whose promise rejects. -/
def errProvider : HoverProvider Nat Nat Nat Nat Nat :=
  ⟨fun _ _ => Except.error 7⟩

/-- A provider resolving with a valid hover. -/
def okProvider : HoverProvider Nat Nat Nat Nat Nat :=
  ⟨fun _ _ => Except.ok (some exHover)⟩

/-- A provider resolving with a hover that lacks `contents`. -/
def noContentsProvider : HoverProvider Nat Nat Nat Nat Nat :=
  ⟨fun _ _ => Except.ok (some exHoverNoContents)⟩

/-- A registry whose order is a rejecting provider followed by a resolving
one. -/
def orderedErrFirst : Nat → List (HoverProvider Nat Nat Nat Nat Nat) :=
  fun _ => [errProvider, okProvider]

/-- A registry with a single provider returning a hover without contents. -/
def orderedNoContents : Nat → List (HoverProvider Nat Nat Nat Nat Nat) :=
  fun _ => [noContentsProvider]

end GetHover

namespace Cursor

/-- `Position` from `vs/editor/common/core/position`. -/
structure Position where
  lineNumber : Int
  column : Int
deriving DecidableEq

/-- `Range` from `vs/editor/common/core/range`. -/
structure Range where
  startLineNumber : Int
  startColumn : Int
  endLineNumber : Int
  endColumn : Int
deriving DecidableEq

/-- `Position.equals` on non-null positions: component-wise equality. -/
def Position.equals (a b : Position) : Bool :=
  a.lineNumber == b.lineNumber && a.column == b.column

/-- `Range.equalsRange` on non-null ranges: component-wise equality. -/
def Range.equalsRange (a b : Range) : Bool :=
  a.startLineNumber == b.startLineNumber && a.startColumn == b.startColumn &&
  a.endLineNumber == b.endLineNumber && a.endColumn == b.endColumn

/-- `SingleCursorState` as `_setState` reads and builds it: a selection-start
range, a position, and the two leftover-visible-columns counters (the
constructor's argument order).  Equality of states (`equals`) is
component-wise. -/
structure SingleCursorState where
  selectionStart : Range
  selectionStartLeftoverVisibleColumns : Int
  cursorPosition : Position
  leftoverVisibleColumns : Int
deriving DecidableEq

/-- `SingleCursorState.equals` on non-null states: compare the leftover
counters, the position and the selection-start range. -/
def SingleCursorState.equals (a b : SingleCursorState) : Bool :=
  a.selectionStartLeftoverVisibleColumns == b.selectionStartLeftoverVisibleColumns &&
  a.leftoverVisibleColumns == b.leftoverVisibleColumns &&
  a.cursorPosition.equals b.cursorPosition &&
  a.selectionStart.equalsRange b.selectionStart

/-- The `CursorContext` operations `_setState` uses, kept abstract: model
validation (`context.model.validateRange` / `validatePosition`), the
view↔model coordinate conversions, view-side validation against an expected
model range/position, and the model's `_setTrackedRange` (which records the
selection and returns the tracked-range id). -/
structure CursorContext where
  validateRange : Range → Range
  validatePosition : Position → Position
  convertViewRangeToModelRange : Range → Range
  convertViewPositionToModelPosition : Int → Int → Position
  convertModelPositionToViewPosition : Position → Position
  validateViewRange : Range → Range → Range
  validateViewPosition : Position → Position → Position
  setTrackedRange : Option String → Option SingleCursorState → Option String

/-- The observable fields of `OneCursor`: `modelState` and `viewState`
(each `null` before the constructor body runs) and the tracked-range id. -/
structure OneCursor where
  modelState : Option SingleCursorState
  viewState : Option SingleCursorState
  selTrackedRange : Option String

/-- The `!modelState` / validation half of `_setState` (lines 58-80): with no
model state, compute one from the view state by view→model conversion plus
validation; otherwise validate the given model state, resetting a leftover
counter exactly when validation changed the corresponding component.
Returns `none` when both arguments are `null` (the source would dereference
`null` there and throw). -/
def computeModelState (context : CursorContext)
    (modelState viewState : Option SingleCursorState) :
    Option SingleCursorState :=
  match modelState with
  | none =>
    match viewState with
    | none => none
    | some v =>
      let selectionStart := context.validateRange
        (context.convertViewRangeToModelRange v.selectionStart)
      let pos := context.validatePosition
        (context.convertViewPositionToModelPosition v.cursorPosition.lineNumber
          v.cursorPosition.column)
      some ⟨selectionStart, v.selectionStartLeftoverVisibleColumns, pos,
        v.leftoverVisibleColumns⟩
  | some m =>
    let selectionStart := context.validateRange m.selectionStart
    let selectionStartLeftoverVisibleColumns :=
      if m.selectionStart.equalsRange selectionStart then
        m.selectionStartLeftoverVisibleColumns
      else 0
    let pos := context.validatePosition m.cursorPosition
    let leftoverVisibleColumns :=
      if m.cursorPosition.equals pos then m.leftoverVisibleColumns else 0
    some ⟨selectionStart, selectionStartLeftoverVisibleColumns, pos,
      leftoverVisibleColumns⟩

/-- The `!viewState` / view-validation half of `_setState` (lines 83-95),
run against the already reconciled model state: with no view state, convert
the model selection-start endpoints and position to view coordinates;
otherwise validate the given view coordinates against the model state.
Either way the leftover counters are taken from the model state. -/
def computeViewState (context : CursorContext)
    (viewState : Option SingleCursorState) (m : SingleCursorState) :
    SingleCursorState :=
  match viewState with
  | none =>
    let viewSelectionStart1 := context.convertModelPositionToViewPosition
      ⟨m.selectionStart.startLineNumber, m.selectionStart.startColumn⟩
    let viewSelectionStart2 := context.convertModelPositionToViewPosition
      ⟨m.selectionStart.endLineNumber, m.selectionStart.endColumn⟩
    let viewSelectionStart : Range := ⟨viewSelectionStart1.lineNumber,
      viewSelectionStart1.column, viewSelectionStart2.lineNumber,
      viewSelectionStart2.column⟩
    let viewPosition := context.convertModelPositionToViewPosition m.cursorPosition
    ⟨viewSelectionStart, m.selectionStartLeftoverVisibleColumns, viewPosition,
      m.leftoverVisibleColumns⟩
  | some v =>
    let viewSelectionStart := context.validateViewRange v.selectionStart
      m.selectionStart
    let viewPosition := context.validateViewPosition v.cursorPosition
      m.cursorPosition
    ⟨viewSelectionStart, m.selectionStartLeftoverVisibleColumns, viewPosition,
      m.leftoverVisibleColumns⟩

/-- `OneCursor._setState`: reconcile the two states, early-return when both
current states exist and equal the reconciled ones, otherwise store them and
update the tracked range.  `none` models the `TypeError` thrown when both
arguments are `null`. -/
def OneCursor.setState (context : CursorContext) (cursor : OneCursor)
    (modelState viewState : Option SingleCursorState) : Option OneCursor :=
  match computeModelState context modelState viewState with
  | none => none
  | some m =>
    let v := computeViewState context viewState m
    match cursor.modelState, cursor.viewState with
    | some oldModel, some oldView =>
      if oldModel.equals m && oldView.equals v then
        some cursor
      else
        some ⟨some m, some v,
          context.setTrackedRange cursor.selTrackedRange (some m)⟩
    | _, _ =>
      some ⟨some m, some v,
        context.setTrackedRange cursor.selTrackedRange (some m)⟩

/-- `OneCursor.ensureValidState`: `_setState(context, modelState, viewState)`
with the current states. -/
def OneCursor.ensureValidState (context : CursorContext) (cursor : OneCursor) :
    Option OneCursor :=
  OneCursor.setState context cursor cursor.modelState cursor.viewState

/-- The state both constructor arguments start from:
`new SingleCursorState(new Range(1,1,1,1), 0, new Position(1,1), 0)`. -/
def initialCursorState : SingleCursorState :=
  ⟨⟨1, 1, 1, 1⟩, 0, ⟨1, 1⟩, 0⟩

/-- The `OneCursor` constructor: null out the fields, then `_setState` with
the two initial states. -/
def OneCursor.create (context : CursorContext) : Option OneCursor :=
  OneCursor.setState context ⟨none, none, none⟩
    (some initialCursorState) (some initialCursorState)

/-- The view range obtained from a model range by the code's model→view
conversion of both endpoints (lines 84-86). -/
def modelRangeToViewRange (context : CursorContext) (r : Range) : Range :=
  let p1 := context.convertModelPositionToViewPosition
    ⟨r.startLineNumber, r.startColumn⟩
  let p2 := context.convertModelPositionToViewPosition
    ⟨r.endLineNumber, r.endColumn⟩
  ⟨p1.lineNumber, p1.column, p2.lineNumber, p2.column⟩

/-- A view range corresponds to a model range when it is the model range's
model→view conversion, or the view-side validation of some raw view range
against that model range. -/
def ViewRangeForModel (context : CursorContext) (vr mr : Range) : Prop :=
  vr = modelRangeToViewRange context mr ∨
  ∃ raw, vr = context.validateViewRange raw mr

/-- A view position corresponds to a model position when it is the model
position's model→view conversion, or the view-side validation of some raw
view position against that model position. -/
def ViewPositionForModel (context : CursorContext) (vp mp : Position) : Prop :=
  vp = context.convertModelPositionToViewPosition mp ∨
  ∃ raw, vp = context.validateViewPosition raw mp

/-- The synchronization invariant of `OneCursor`: both states present, the
view state's leftover counters equal the model state's, and the view
selection start and position are view coordinates corresponding to the model
state's under the context's conversion and view validation. -/
def StatesSynced (context : CursorContext) (cursor : OneCursor) : Prop :=
  ∃ m v, cursor.modelState = some m ∧ cursor.viewState = some v ∧
    v.selectionStartLeftoverVisibleColumns = m.selectionStartLeftoverVisibleColumns ∧
    v.leftoverVisibleColumns = m.leftoverVisibleColumns ∧
    ViewRangeForModel context v.selectionStart m.selectionStart ∧
    ViewPositionForModel context v.cursorPosition m.cursorPosition

/-- A concrete context: identity conversions and validations, no tracked
range recorded. -/
def context0 : CursorContext :=
  ⟨id, id, id, fun l c => ⟨l, c⟩, id, fun r _ => r, fun p _ => p,
    fun _ _ => none⟩

end Cursor

namespace QuickOpen

/-- The editor facets `QuickOpenController` touches: the current selection,
the live decorations of this controller (id and decorated range), a fresh-id
counter for `deltaDecorations`, the focus flag, and the last range revealed
by `revealRangeInCenterIfOutsideViewport`. -/
structure EditorState (σ ρ : Type) where
  selection : σ
  decorations : List (Nat × ρ)
  nextDecorationId : Nat
  focused : Bool
  revealedRange : Option σ

/-- Model of `changeAccessor.deltaDecorations(old, new)`: one atomic change
transaction that removes the decorations whose ids are listed in `old`, adds
one decoration per requested range under a fresh id, and returns the fresh
ids in order. -/
def EditorState.deltaDecorations (editor : EditorState σ ρ)
    (old : List Nat) (added : List ρ) : EditorState σ ρ × List Nat :=
  let kept := editor.decorations.filter (fun d => decide (d.1 ∉ old))
  let newIds := (List.range added.length).map
    (fun i => editor.nextDecorationId + i)
  ({ selection := editor.selection
     decorations := kept ++ newIds.zip added
     nextDecorationId := editor.nextDecorationId + added.length
     focused := editor.focused
     revealedRange := editor.revealedRange }, newIds)

/-- The `QuickOpenController` fields the claims are about, together with the
editor state they act on: whether a widget is open, the recorded
range-highlight decoration id, and the selection remembered for restore. -/
structure ControllerState (σ ρ : Type) where
  editor : EditorState σ ρ
  widgetOpen : Bool
  rangeHighlightDecorationId : Option Nat
  lastKnownEditorSelection : Option σ

/-- The controller right after its constructor, which only stores the
editor: no widget, no recorded decoration, no remembered selection. -/
def ControllerState.initial (editor : EditorState σ ρ) :
    ControllerState σ ρ :=
  ⟨editor, false, none, none⟩

/-- `QuickOpenController.decorateLine`: inside one `changeDecorations`
transaction, schedule the previously recorded decoration (when one exists)
for removal, null the recorded id, add the single new range-highlight
decoration, and record `decorations[0]`, the id the delta returned. -/
def ControllerState.decorateLine (st : ControllerState σ ρ) (range : ρ) :
    ControllerState σ ρ :=
  let old : List Nat :=
    match st.rangeHighlightDecorationId with
    | some i => [i]
    | none => []
  let result := st.editor.deltaDecorations old [range]
  ⟨result.1, st.widgetOpen, result.2.head?, st.lastKnownEditorSelection⟩

/-- `QuickOpenController.clearDecorations`: when a decoration id is
recorded, remove that decoration in a `changeDecorations` transaction and
reset the id to `null`; otherwise do nothing. -/
def ControllerState.clearDecorations (st : ControllerState σ ρ) :
    ControllerState σ ρ :=
  match st.rangeHighlightDecorationId with
  | none => st
  | some i =>
    let result := st.editor.deltaDecorations [i] []
    ⟨result.1, st.widgetOpen, none, st.lastKnownEditorSelection⟩

/-- `QuickOpenController.run`: destroy any previous widget, create the new
one, remember the current editor selection when none is remembered yet, and
show the widget. -/
def ControllerState.run (st : ControllerState σ ρ) : ControllerState σ ρ :=
  let lastKnown :=
    match st.lastKnownEditorSelection with
    | some s => some s
    | none => some st.editor.selection
  ⟨st.editor, true, st.rangeHighlightDecorationId, lastKnown⟩

/-- The `onClose` closure `run` installs on the widget: clear the highlight
decoration; when closing was a cancel and a selection is remembered, restore
it as the editor selection and reveal it; null the remembered selection and
focus the editor. -/
def ControllerState.onClose (st : ControllerState σ ρ) (canceled : Bool) :
    ControllerState σ ρ :=
  let st1 := st.clearDecorations
  let st2 :=
    if canceled then
      match st1.lastKnownEditorSelection with
      | some sel =>
        ⟨⟨sel, st1.editor.decorations, st1.editor.nextDecorationId,
          st1.editor.focused, some sel⟩, st1.widgetOpen,
          st1.rangeHighlightDecorationId, st1.lastKnownEditorSelection⟩
      | none => st1
    else st1
  ⟨⟨st2.editor.selection, st2.editor.decorations,
    st2.editor.nextDecorationId, true, st2.editor.revealedRange⟩,
    false, st2.rangeHighlightDecorationId, none⟩

/-- The decoration invariant: the recorded id is `null` and no highlight
decoration is alive, or it is the id of the single live highlight
decoration (an id older than the fresh-id counter). -/
def HighlightInv (st : ControllerState σ ρ) : Prop :=
  match st.rangeHighlightDecorationId with
  | none => st.editor.decorations = []
  | some i =>
    (∃ r, st.editor.decorations = [(i, r)]) ∧ i < st.editor.nextDecorationId

/-- A concrete editor state with no decorations. -/
def exEditor : EditorState Nat Nat := ⟨5, [], 0, false, none⟩

/-- A concrete controller state with an open widget and a remembered
selection. -/
def exController : ControllerState Nat Nat := ⟨exEditor, true, none, some 9⟩

end QuickOpen

namespace GetHover

theorem settleProvider_eq (outcome : Except ε (Option (Hover ρ κ))) :
    settleProvider outcome = Except.ok (collectOutcome outcome) := by
  cases outcome <;> rfl

theorem joinPromises_map_settle
    (outcomes : List (Except ε (Option (Hover ρ κ)))) :
    joinPromises (outcomes.map settleProvider) =
      Except.ok (outcomes.map collectOutcome) := by
  induction outcomes with
  | nil => rfl
  | cons o os ih => simp [joinPromises, settleProvider_eq, ih]

theorem getHoverP_resolves (ordered : μ → List (HoverProvider μ π ρ κ ε))
    (model : μ) (pos : π) :
    getHoverP ordered model pos = Except.ok (getHover ordered model pos) := by
  simp [getHoverP, joinPromises_map_settle]

theorem hoverValues_eq (ordered : μ → List (HoverProvider μ π ρ κ ε))
    (model : μ) (pos : π) :
    hoverValues ordered model pos = (ordered model).map
      (fun support => collectOutcome (support.provideHover model pos)) := by
  simp [hoverValues, hoverOutcomes, hoverFanOut, List.map_map]

theorem map_eraseIdx (f : α → β) :
    ∀ (l : List α) (i : Nat), (l.map f).eraseIdx i = (l.eraseIdx i).map f
  | [], _ => by simp
  | _ :: _, 0 => by simp
  | a :: l, i + 1 => by
    simp [List.eraseIdx_cons_succ, map_eraseIdx f l i]

theorem coalesce_eraseIdx_of_none :
    ∀ (l : List (Option α)) (i : Nat), l[i]? = some none →
      coalesce l = coalesce (l.eraseIdx i)
  | [], i, h => by simp at h
  | a :: l, 0, h => by
    have ha : a = none := by simpa using h
    subst ha
    simp [coalesce]
  | a :: l, i + 1, h => by
    have h' : l[i]? = some none := by simpa using h
    have ih := coalesce_eraseIdx_of_none l i h'
    cases a with
    | none => simpa [coalesce, List.filterMap_cons] using ih
    | some b =>
      simp only [coalesce, List.filterMap_cons, List.eraseIdx_cons_succ] at ih ⊢
      simp [ih]

end GetHover

namespace GetHover

theorem collectOutcome_eq_some_iff
    (outcome : Except ε (Option (Hover ρ κ))) (h : Hover ρ κ) :
    collectOutcome outcome = some h ↔
      outcome = Except.ok (some h) ∧ keepHover h = true := by
  cases outcome with
  | error e => simp [collectOutcome]
  | ok r =>
    cases r with
    | none => simp [collectOutcome, keepResult]
    | some r' =>
      simp only [collectOutcome, keepResult, Except.ok.injEq,
        Option.some.injEq]
      by_cases hk : keepHover r' = true
      · simp only [hk, if_true, Option.some.injEq]
        constructor
        · rintro rfl
          exact ⟨rfl, hk⟩
        · rintro ⟨rfl, _⟩
          rfl
      · simp only [hk, if_false]
        constructor
        · rintro ⟨⟩
        · rintro ⟨rfl, hc⟩
          exact absurd hc hk

theorem collectOutcome_some_produced
    (outcome : Except ε (Option (Hover ρ κ))) (h : Hover ρ κ)
    (hc : collectOutcome outcome = some h) : producedHover outcome = some h := by
  obtain ⟨rfl, -⟩ := (collectOutcome_eq_some_iff outcome h).mp hc
  rfl

theorem filterMap_sublist_of_imp (f g : α → Option β)
    (hfg : ∀ a b, f a = some b → g a = some b) :
    ∀ l : List α, (l.filterMap f).Sublist (l.filterMap g)
  | [] => by simp
  | a :: l => by
    rw [List.filterMap_cons, List.filterMap_cons]
    cases hf : f a with
    | none =>
      cases hg : g a with
      | none => exact filterMap_sublist_of_imp f g hfg l
      | some b => exact (filterMap_sublist_of_imp f g hfg l).cons b
    | some b =>
      rw [hfg a b hf]
      exact (filterMap_sublist_of_imp f g hfg l).cons₂ b

theorem getHover_eq_filterMap (ordered : μ → List (HoverProvider μ π ρ κ ε))
    (model : μ) (pos : π) :
    getHover ordered model pos =
      (hoverOutcomes ordered model pos).filterMap collectOutcome := by
  simp only [getHover, coalesce, hoverValues, List.filterMap_map]
  rfl

theorem getHover_sublist_produced (ordered : μ → List (HoverProvider μ π ρ κ ε))
    (model : μ) (pos : π) :
    (getHover ordered model pos).Sublist
      ((hoverOutcomes ordered model pos).filterMap producedHover) := by
  rw [getHover_eq_filterMap]
  exact filterMap_sublist_of_imp _ _ collectOutcome_some_produced _

/-- C1: if some provider's `provideHover` rejects, the promise returned by
`getHover` still resolves (with exactly the aggregation result), and the
result is the one the remaining providers alone produce: the failing
provider contributes nothing and the others are unaffected. -/
theorem getHover_suppresses_provider_errors
    (ordered : μ → List (HoverProvider μ π ρ κ ε)) (model : μ) (pos : π)
    (i : Nat) (e : ε)
    (h : (hoverOutcomes ordered model pos)[i]? = some (Except.error e)) :
    getHoverP ordered model pos = Except.ok (getHover ordered model pos) ∧
    getHover ordered model pos =
      getHoverOf ((ordered model).eraseIdx i) model pos := by
  refine ⟨getHoverP_resolves ordered model pos, ?_⟩
  have hv : (hoverValues ordered model pos)[i]? = some none := by
    simp only [hoverValues, List.getElem?_map, h, Option.map_some]
    rfl
  have herase := coalesce_eraseIdx_of_none _ i hv
  rw [getHover, herase, hoverValues_eq, map_eraseIdx]
  rfl

/-- C1 witness: a concrete registry whose first provider rejects. -/
theorem getHover_suppresses_provider_errors_witness :
    (hoverOutcomes orderedErrFirst 0 0)[0]? = some (Except.error 7) ∧
    (getHoverP orderedErrFirst 0 0 = Except.ok (getHover orderedErrFirst 0 0) ∧
     getHover orderedErrFirst 0 0 =
       getHoverOf ((orderedErrFirst 0).eraseIdx 0) 0 0) :=
  ⟨rfl, getHover_suppresses_provider_errors orderedErrFirst 0 0 0 7 rfl⟩

/-- C2: the fan-out issues exactly one `provideHover` call per provider of
`HoverProviderRegistry.ordered(model)` — one call slot per registry index,
none skipped — and every call passes that same model and position. -/
theorem getHover_fanout_covers
    (ordered : μ → List (HoverProvider μ π ρ κ ε)) (model : μ) (pos : π) :
    (hoverFanOut ordered model pos).length = (ordered model).length ∧
    (∀ i : Nat, (hoverFanOut ordered model pos)[i]? =
      ((ordered model)[i]?).map
        (fun support => (⟨model, pos⟩, support.provideHover model pos))) ∧
    ∀ call ∈ hoverFanOut ordered model pos,
      call.1 = HoverCall.mk model pos := by
  refine ⟨by simp [hoverFanOut], fun i => by simp [hoverFanOut], ?_⟩
  intro call hc
  simp only [hoverFanOut, List.mem_map] at hc
  obtain ⟨s, -, rfl⟩ := hc
  rfl

/-- C2 witness: the fan-out over a concrete two-provider registry. -/
theorem getHover_fanout_covers_witness :
    (hoverFanOut orderedErrFirst 0 0).length = (orderedErrFirst 0).length ∧
    (hoverFanOut orderedErrFirst 0 0)[0]? =
      ((orderedErrFirst 0)[0]?).map
        (fun support => (⟨0, 0⟩, support.provideHover 0 0)) :=
  ⟨(getHover_fanout_covers orderedErrFirst 0 0).1,
   (getHover_fanout_covers orderedErrFirst 0 0).2.1 0⟩

/-- C3 counterexample: a provider returns a hover whose `contents` is
`undefined`; `getHover` resolves with the empty array, not with the
collection of the hover results the providers produced. -/
theorem getHover_drops_filtered_result :
    hoverOutcomes orderedNoContents 0 0 =
      [Except.ok (some exHoverNoContents)] ∧
    getHover orderedNoContents 0 0 = [] ∧
    getHover orderedNoContents 0 0 ≠ [exHoverNoContents] :=
  ⟨rfl, rfl, by decide⟩

/-- C3 amended: the resolved array is the registry-ordered list of exactly
those provider results that pass the validity filter; in particular it is an
order-preserving subsequence of the hovers the providers returned, each
element unmodified. -/
theorem getHover_filtered_subsequence
    (ordered : μ → List (HoverProvider μ π ρ κ ε)) (model : μ) (pos : π) :
    getHover ordered model pos =
      (hoverOutcomes ordered model pos).filterMap collectOutcome ∧
    (getHover ordered model pos).Sublist
      ((hoverOutcomes ordered model pos).filterMap producedHover) :=
  ⟨getHover_eq_filterMap ordered model pos,
   getHover_sublist_produced ordered model pos⟩

/-- C3 amended witness: concrete evaluation on the two-provider registry. -/
theorem getHover_filtered_subsequence_witness :
    getHover orderedErrFirst 0 0 =
      (hoverOutcomes orderedErrFirst 0 0).filterMap collectOutcome ∧
    (getHover orderedErrFirst 0 0).Sublist
      ((hoverOutcomes orderedErrFirst 0 0).filterMap producedHover) :=
  getHover_filtered_subsequence orderedErrFirst 0 0

/-- C4: a hover value appears in the resolved array exactly when some
provider returned it and it passes the validity test (truthy, `range`
defined, `contents` defined and non-empty); failed providers and filtered
values are dropped, and the survivors keep provider order. -/
theorem getHover_mem_iff
    (ordered : μ → List (HoverProvider μ π ρ κ ε)) (model : μ) (pos : π) :
    (∀ h : Hover ρ κ, h ∈ getHover ordered model pos ↔
      ((∃ support ∈ ordered model,
        support.provideHover model pos = Except.ok (some h)) ∧
       keepHover h = true)) ∧
    (getHover ordered model pos).Sublist
      ((hoverOutcomes ordered model pos).filterMap producedHover) := by
  refine ⟨fun h => ?_, getHover_sublist_produced ordered model pos⟩
  rw [getHover_eq_filterMap, List.mem_filterMap]
  constructor
  · rintro ⟨o, ho, hc⟩
    obtain ⟨rfl, hk⟩ := (collectOutcome_eq_some_iff o h).mp hc
    simp only [hoverOutcomes, hoverFanOut, List.map_map, List.mem_map] at ho
    obtain ⟨s, hs, hval⟩ := ho
    exact ⟨⟨s, hs, hval⟩, hk⟩
  · rintro ⟨⟨s, hs, hval⟩, hk⟩
    refine ⟨Except.ok (some h), ?_, ?_⟩
    · simp only [hoverOutcomes, hoverFanOut, List.map_map, List.mem_map]
      exact ⟨s, hs, hval⟩
    · exact (collectOutcome_eq_some_iff _ h).mpr ⟨rfl, hk⟩

/-- C4 witness: membership characterization evaluated on the concrete
two-provider registry. -/
theorem getHover_mem_iff_witness :
    exHover ∈ getHover orderedErrFirst 0 0 ↔
      ((∃ support ∈ orderedErrFirst 0,
        support.provideHover 0 0 = Except.ok (some exHover)) ∧
       keepHover exHover = true) :=
  (getHover_mem_iff orderedErrFirst 0 0).1 exHover

end GetHover

namespace GetHover

theorem applySettlement_length
    (outcomes : List (Except ε (Option (Hover ρ κ))))
    (values : List (Option (Hover ρ κ))) (idx : Nat) :
    (applySettlement outcomes values idx).length = values.length := by
  unfold applySettlement
  split <;> simp

theorem foldl_applySettlement_length
    (outcomes : List (Except ε (Option (Hover ρ κ)))) :
    ∀ (order : List Nat) (values : List (Option (Hover ρ κ))),
      (order.foldl (applySettlement outcomes) values).length = values.length
  | [], _ => rfl
  | idx :: rest, values => by
    rw [List.foldl_cons, foldl_applySettlement_length outcomes rest,
      applySettlement_length]

theorem foldl_applySettlement_getElem?
    (outcomes : List (Except ε (Option (Hover ρ κ)))) :
    ∀ (order : List Nat) (values : List (Option (Hover ρ κ))),
      values.length = outcomes.length → ∀ i : Nat,
      (order.foldl (applySettlement outcomes) values)[i]? =
        if i ∈ order ∧ i < outcomes.length then
          (outcomes[i]?).map collectOutcome
        else values[i]?
  | [], values, _, i => by simp
  | idx :: rest, values, hlen, i => by
    rw [List.foldl_cons,
      foldl_applySettlement_getElem? outcomes rest _
        (by rw [applySettlement_length]; exact hlen) i]
    by_cases h1 : i ∈ rest ∧ i < outcomes.length
    · rw [if_pos h1, if_pos ⟨List.mem_cons_of_mem idx h1.1, h1.2⟩]
    · rw [if_neg h1]
      by_cases h2 : i = idx ∧ i < outcomes.length
      · obtain ⟨rfl, hlt⟩ := h2
        rw [if_pos ⟨List.mem_cons_self i rest, hlt⟩]
        unfold applySettlement
        rw [List.getElem?_eq_getElem hlt]
        simp only [Option.map_some]
        exact List.getElem?_set_self (hlen ▸ hlt)
      · have hnone : ¬(i ∈ idx :: rest ∧ i < outcomes.length) := by
          rintro ⟨hmem, hlt⟩
          rcases List.mem_cons.mp hmem with rfl | hm
          · exact h2 ⟨rfl, hlt⟩
          · exact h1 ⟨hm, hlt⟩
        rw [if_neg hnone]
        unfold applySettlement
        cases ho : outcomes[idx]? with
        | none => rfl
        | some o =>
          by_cases hne : idx = i
          · subst hne
            have hlt : idx < outcomes.length := by
              by_contra hge
              rw [List.getElem?_eq_none (Nat.le_of_not_lt hge)] at ho
              cases ho
            exact absurd ⟨rfl, hlt⟩ h2
          · exact List.getElem?_set_ne hne

/-- C8: the aggregation is a deterministic function of the providers'
outcomes: running the per-provider settlements in any order — any
permutation of the promise indices — yields the same resolved array as
`getHover`. -/
theorem getHover_schedule_independent
    (ordered : μ → List (HoverProvider μ π ρ κ ε)) (model : μ) (pos : π)
    (order : List Nat)
    (h : order.Perm (List.range (ordered model).length)) :
    runSchedule ordered model pos order = getHover ordered model pos := by
  have hn : (hoverOutcomes ordered model pos).length = (ordered model).length := by
    simp [hoverOutcomes, hoverFanOut]
  have hvals : order.foldl (applySettlement (hoverOutcomes ordered model pos))
      (List.replicate (hoverOutcomes ordered model pos).length none) =
      (hoverOutcomes ordered model pos).map collectOutcome := by
    apply List.ext_getElem?
    intro i
    rw [foldl_applySettlement_getElem? (hoverOutcomes ordered model pos) order _
      (by simp) i]
    by_cases hlt : i < (hoverOutcomes ordered model pos).length
    · have hmem : i ∈ order := h.mem_iff.mpr (List.mem_range.mpr (hn ▸ hlt))
      rw [if_pos ⟨hmem, hlt⟩, List.getElem?_map]
    · rw [if_neg (by rintro ⟨-, hc⟩; exact hlt hc), List.getElem?_replicate,
        if_neg hlt, eq_comm]
      exact List.getElem?_eq_none (by simpa using Nat.le_of_not_lt hlt)
  simp only [runSchedule, hvals]
  rfl

/-- C8 witness: the reversed settlement order on the concrete two-provider
registry yields the same result as `getHover`. -/
theorem getHover_schedule_independent_witness :
    ([1, 0] : List Nat).Perm (List.range (orderedErrFirst 0).length) ∧
    runSchedule orderedErrFirst 0 0 [1, 0] = getHover orderedErrFirst 0 0 :=
  ⟨by decide,
   getHover_schedule_independent orderedErrFirst 0 0 [1, 0] (by decide)⟩

end GetHover

namespace Cursor

theorem position_equals_iff (a b : Position) : a.equals b = true ↔ a = b := by
  cases a
  cases b
  simp [Position.equals]

theorem Range.equalsRange_iff (a b : Range) : a.equalsRange b = true ↔ a = b := by
  cases a
  cases b
  simp [Range.equalsRange, and_assoc]

theorem cursorState_equals_iff (a b : SingleCursorState) :
    a.equals b = true ↔ a = b := by
  cases a
  cases b
  simp [SingleCursorState.equals, position_equals_iff, Range.equalsRange_iff,
    and_assoc]
  tauto

theorem setState_fields (context : CursorContext) (cursor : OneCursor)
    (mOpt vOpt : Option SingleCursorState) (c : OneCursor)
    (h : OneCursor.setState context cursor mOpt vOpt = some c) :
    ∃ m, computeModelState context mOpt vOpt = some m ∧
      c.modelState = some m ∧
      c.viewState = some (computeViewState context vOpt m) := by
  unfold OneCursor.setState at h
  cases hm : computeModelState context mOpt vOpt with
  | none =>
    rw [hm] at h
    cases h
  | some m =>
    rw [hm] at h
    simp only at h
    refine ⟨m, rfl, ?_⟩
    cases hcm : cursor.modelState with
    | none =>
      rw [hcm] at h
      simp only at h
      cases h
      exact ⟨rfl, rfl⟩
    | some oldModel =>
      cases hcv : cursor.viewState with
      | none =>
        rw [hcm, hcv] at h
        simp only at h
        cases h
        exact ⟨rfl, rfl⟩
      | some oldView =>
        rw [hcm, hcv] at h
        simp only at h
        by_cases heq : (oldModel.equals m &&
            oldView.equals (computeViewState context vOpt m)) = true
        · rw [if_pos heq] at h
          cases h
          rw [Bool.and_eq_true] at heq
          have h1 : oldModel = m :=
            (cursorState_equals_iff _ _).mp heq.1
          have h2 : oldView = computeViewState context vOpt m :=
            (cursorState_equals_iff _ _).mp heq.2
          rw [hcm, hcv, h1, h2]
          exact ⟨rfl, rfl⟩
        · rw [if_neg heq] at h
          cases h
          exact ⟨rfl, rfl⟩

/-- C5: after the constructor (which always completes) and after every
completed `setState` or `ensureValidState` call, both states are non-null
and synchronized: the view state's leftover counters equal the model
state's, and its selection start and position are view coordinates
corresponding to the model state's under the context's model→view
conversion and view validation. -/
theorem oneCursor_states_synced (context : CursorContext) :
    (∃ c, OneCursor.create context = some c) ∧
    (∀ c, OneCursor.create context = some c → StatesSynced context c) ∧
    (∀ cursor mOpt vOpt c,
      OneCursor.setState context cursor mOpt vOpt = some c →
      StatesSynced context c) ∧
    (∀ cursor c, OneCursor.ensureValidState context cursor = some c →
      StatesSynced context c) := by
  have hsync : ∀ cursor mOpt vOpt c,
      OneCursor.setState context cursor mOpt vOpt = some c →
      StatesSynced context c := by
    intro cursor mOpt vOpt c h
    obtain ⟨m, -, hcm, hcv⟩ := setState_fields context cursor mOpt vOpt c h
    refine ⟨m, computeViewState context vOpt m, hcm, hcv, ?_, ?_, ?_, ?_⟩
    · cases vOpt <;> rfl
    · cases vOpt <;> rfl
    · cases vOpt with
      | none => exact Or.inl rfl
      | some v0 => exact Or.inr ⟨v0.selectionStart, rfl⟩
    · cases vOpt with
      | none => exact Or.inl rfl
      | some v0 => exact Or.inr ⟨v0.cursorPosition, rfl⟩
  exact ⟨⟨_, rfl⟩, fun c h => hsync _ _ _ c h, hsync,
    fun cursor c h => hsync _ _ _ c h⟩

/-- C5 witness: the constructor over a concrete identity context. -/
theorem oneCursor_states_synced_witness :
    OneCursor.create context0 =
      some ⟨some initialCursorState, some initialCursorState, none⟩ ∧
    StatesSynced context0
      ⟨some initialCursorState, some initialCursorState, none⟩ :=
  ⟨rfl, (oneCursor_states_synced context0).2.1 _ rfl⟩

/-- C6: a completed `setState` with a non-null model state stores the
validated selection start and position, preserving a leftover counter
exactly when validation left the corresponding component unchanged and
resetting it to `0` otherwise. -/
theorem setState_validates_model_state (context : CursorContext)
    (cursor : OneCursor) (m : SingleCursorState)
    (vOpt : Option SingleCursorState) (c : OneCursor)
    (h : OneCursor.setState context cursor (some m) vOpt = some c) :
    c.modelState = some ⟨context.validateRange m.selectionStart,
      if m.selectionStart = context.validateRange m.selectionStart then
        m.selectionStartLeftoverVisibleColumns
      else 0,
      context.validatePosition m.cursorPosition,
      if m.cursorPosition = context.validatePosition m.cursorPosition then
        m.leftoverVisibleColumns
      else 0⟩ := by
  obtain ⟨m', hm', hcm, -⟩ := setState_fields context cursor (some m) vOpt c h
  simp only [computeModelState, Option.some.injEq] at hm'
  rw [hcm, ← hm']
  have h1 : (if m.selectionStart.equalsRange (context.validateRange m.selectionStart)
        then m.selectionStartLeftoverVisibleColumns else 0) =
      (if m.selectionStart = context.validateRange m.selectionStart
        then m.selectionStartLeftoverVisibleColumns else 0) := by
    by_cases hb : m.selectionStart = context.validateRange m.selectionStart
    · rw [if_pos ((Range.equalsRange_iff _ _).mpr hb), if_pos hb]
    · rw [if_neg (fun hc => hb ((Range.equalsRange_iff _ _).mp hc)), if_neg hb]
  have h2 : (if m.cursorPosition.equals (context.validatePosition m.cursorPosition)
        then m.leftoverVisibleColumns else 0) =
      (if m.cursorPosition = context.validatePosition m.cursorPosition
        then m.leftoverVisibleColumns else 0) := by
    by_cases hb : m.cursorPosition = context.validatePosition m.cursorPosition
    · rw [if_pos ((position_equals_iff _ _).mpr hb), if_pos hb]
    · rw [if_neg (fun hc => hb ((position_equals_iff _ _).mp hc)), if_neg hb]
  rw [h1, h2]

/-- C6 witness: a concrete `setState` call over the identity context. -/
theorem setState_validates_model_state_witness :
    OneCursor.setState context0 ⟨none, none, none⟩ (some initialCursorState)
      (some initialCursorState) =
      some ⟨some initialCursorState, some initialCursorState, none⟩ ∧
    (⟨some initialCursorState, some initialCursorState, none⟩ : OneCursor).modelState =
      some ⟨context0.validateRange initialCursorState.selectionStart,
        if initialCursorState.selectionStart =
            context0.validateRange initialCursorState.selectionStart then
          initialCursorState.selectionStartLeftoverVisibleColumns
        else 0,
        context0.validatePosition initialCursorState.cursorPosition,
        if initialCursorState.cursorPosition =
            context0.validatePosition initialCursorState.cursorPosition then
          initialCursorState.leftoverVisibleColumns
        else 0⟩ :=
  ⟨rfl, setState_validates_model_state context0 ⟨none, none, none⟩
    initialCursorState (some initialCursorState)
    ⟨some initialCursorState, some initialCursorState, none⟩ rfl⟩

/-- C7: with a null model state, the stored model state is computed from the
view state by view→model conversion plus validation, leftover counters
copied from the view state; with a null view state, the stored view state is
computed from the validated model state by model→view conversion of the
selection-start endpoints and the position. -/
theorem setState_converts_missing_state (context : CursorContext) :
    (∀ cursor v c,
      OneCursor.setState context cursor none (some v) = some c →
      c.modelState = some ⟨context.validateRange
          (context.convertViewRangeToModelRange v.selectionStart),
        v.selectionStartLeftoverVisibleColumns,
        context.validatePosition (context.convertViewPositionToModelPosition
          v.cursorPosition.lineNumber v.cursorPosition.column),
        v.leftoverVisibleColumns⟩) ∧
    (∀ cursor m c,
      OneCursor.setState context cursor (some m) none = some c →
      ∃ ms, c.modelState = some ms ∧
        c.viewState = some ⟨modelRangeToViewRange context ms.selectionStart,
          ms.selectionStartLeftoverVisibleColumns,
          context.convertModelPositionToViewPosition ms.cursorPosition,
          ms.leftoverVisibleColumns⟩) := by
  constructor
  · intro cursor v c h
    obtain ⟨m', hm', hcm, -⟩ := setState_fields context cursor none (some v) c h
    simp only [computeModelState, Option.some.injEq] at hm'
    rw [hcm, ← hm']
  · intro cursor m c h
    obtain ⟨m', -, hcm, hcv⟩ := setState_fields context cursor (some m) none c h
    refine ⟨m', hcm, ?_⟩
    rw [hcv]
    rfl

/-- C7 witness: a concrete `setState` call with a null model state. -/
theorem setState_converts_missing_state_witness :
    (⟨some initialCursorState, some initialCursorState, none⟩ : OneCursor).modelState =
      some ⟨context0.validateRange (context0.convertViewRangeToModelRange
          initialCursorState.selectionStart),
        initialCursorState.selectionStartLeftoverVisibleColumns,
        context0.validatePosition (context0.convertViewPositionToModelPosition
          initialCursorState.cursorPosition.lineNumber
          initialCursorState.cursorPosition.column),
        initialCursorState.leftoverVisibleColumns⟩ :=
  (setState_converts_missing_state context0).1 ⟨none, none, none⟩
    initialCursorState ⟨some initialCursorState, some initialCursorState, none⟩
    rfl

end Cursor

namespace QuickOpen

theorem range_one_eq : List.range 1 = [0] := by
  simp [List.range_succ]

theorem clearDecorations_lastKnown (st : ControllerState σ ρ) :
    st.clearDecorations.lastKnownEditorSelection =
      st.lastKnownEditorSelection := by
  cases hr : st.rangeHighlightDecorationId <;>
    simp [ControllerState.clearDecorations, hr, EditorState.deltaDecorations]

theorem clearDecorations_selection (st : ControllerState σ ρ) :
    st.clearDecorations.editor.selection = st.editor.selection := by
  cases hr : st.rangeHighlightDecorationId <;>
    simp [ControllerState.clearDecorations, hr, EditorState.deltaDecorations]

theorem clearDecorations_rid (st : ControllerState σ ρ) :
    st.clearDecorations.rangeHighlightDecorationId = none := by
  cases hr : st.rangeHighlightDecorationId <;>
    simp [ControllerState.clearDecorations, hr, EditorState.deltaDecorations]

theorem highlightInv_congr (st st' : ControllerState σ ρ)
    (hd : st'.editor.decorations = st.editor.decorations)
    (hn : st'.editor.nextDecorationId = st.editor.nextDecorationId)
    (hr : st'.rangeHighlightDecorationId = st.rangeHighlightDecorationId)
    (h : HighlightInv st) : HighlightInv st' := by
  unfold HighlightInv at h ⊢
  rw [hd, hn, hr]
  exact h

theorem highlightInv_decorateLine (st : ControllerState σ ρ) (range : ρ)
    (h : HighlightInv st) : HighlightInv (st.decorateLine range) := by
  cases hr : st.rangeHighlightDecorationId with
  | none =>
    unfold HighlightInv at h
    rw [hr] at h
    simp [HighlightInv, ControllerState.decorateLine,
      EditorState.deltaDecorations, hr, h, range_one_eq]
  | some i =>
    unfold HighlightInv at h
    rw [hr] at h
    obtain ⟨⟨r0, hdec⟩, hlt⟩ := h
    simp [HighlightInv, ControllerState.decorateLine,
      EditorState.deltaDecorations, hr, hdec, range_one_eq]

theorem highlightInv_clearDecorations (st : ControllerState σ ρ)
    (h : HighlightInv st) : HighlightInv st.clearDecorations := by
  cases hr : st.rangeHighlightDecorationId with
  | none =>
    have heq : st.clearDecorations = st := by
      unfold ControllerState.clearDecorations
      rw [hr]
    rw [heq]
    exact h
  | some i =>
    unfold HighlightInv at h
    rw [hr] at h
    obtain ⟨⟨r0, hdec⟩, hlt⟩ := h
    simp [HighlightInv, ControllerState.clearDecorations,
      EditorState.deltaDecorations, hr, hdec]

theorem highlightInv_run (st : ControllerState σ ρ)
    (h : HighlightInv st) : HighlightInv st.run :=
  highlightInv_congr st st.run rfl rfl rfl h

theorem highlightInv_onClose (st : ControllerState σ ρ) (canceled : Bool)
    (h : HighlightInv st) : HighlightInv (st.onClose canceled) := by
  have h1 := highlightInv_clearDecorations st h
  unfold ControllerState.onClose
  cases canceled with
  | false => exact highlightInv_congr _ _ rfl rfl rfl h1
  | true =>
    cases hk : st.clearDecorations.lastKnownEditorSelection with
    | none =>
      simp only [if_true, hk]
      exact highlightInv_congr _ _ rfl rfl rfl h1
    | some sel =>
      simp only [if_true, hk]
      exact highlightInv_congr _ _ rfl rfl rfl h1

/-- C9: closing the quick-open widget with `canceled = true` while a
selection is remembered restores that selection (the one captured at the
first `run` call, since `run` captures only when none is remembered),
reveals it, nulls the remembered selection and focuses the editor; closing
with `canceled = false` leaves the selection alone, clears the decoration,
nulls the remembered selection and focuses the editor. -/
theorem quickOpen_onClose_restores_selection (st : ControllerState σ ρ)
    (s : σ) :
    (st.lastKnownEditorSelection = some s →
      (st.onClose true).editor.selection = s ∧
      (st.onClose true).editor.revealedRange = some s ∧
      (st.onClose true).lastKnownEditorSelection = none ∧
      (st.onClose true).editor.focused = true) ∧
    ((st.onClose false).editor.selection = st.editor.selection ∧
      (st.onClose false).rangeHighlightDecorationId = none ∧
      (st.onClose false).lastKnownEditorSelection = none ∧
      (st.onClose false).editor.focused = true) ∧
    (st.lastKnownEditorSelection = none →
      st.run.lastKnownEditorSelection = some st.editor.selection) ∧
    (st.lastKnownEditorSelection = some s →
      st.run.lastKnownEditorSelection = some s) := by
  refine ⟨?_, ?_, ?_, ?_⟩
  · intro hs
    have hk : st.clearDecorations.lastKnownEditorSelection = some s :=
      (clearDecorations_lastKnown st).trans hs
    simp [ControllerState.onClose, hk]
  · simp [ControllerState.onClose, clearDecorations_selection,
      clearDecorations_rid]
  · intro hn
    simp [ControllerState.run, hn]
  · intro hs
    simp [ControllerState.run, hs]

/-- C9 witness: a concrete close of the widget, canceled and not. -/
theorem quickOpen_onClose_restores_selection_witness :
    (exController.onClose true).editor.selection = 9 ∧
    (exController.onClose true).lastKnownEditorSelection = none ∧
    (exController.onClose false).editor.selection = 5 :=
  ⟨((quickOpen_onClose_restores_selection exController 9).1 rfl).1,
   ((quickOpen_onClose_restores_selection exController 9).1 rfl).2.2.1,
   (quickOpen_onClose_restores_selection exController 9).2.1.1⟩

/-- C10: `rangeHighlightDecorationId` is `null` or the id of the single live
highlight decoration: the invariant holds initially and is preserved by
`decorateLine` (which, in one transaction, removes the previously recorded
decoration, adds the new one and records its id), by `clearDecorations`
(which removes the recorded decoration and resets the id), and by the other
operations. -/
theorem quickOpen_single_highlight_decoration {σ ρ : Type}
    (editor : EditorState σ ρ) (st : ControllerState σ ρ) (range : ρ)
    (canceled : Bool) :
    (editor.decorations = [] → HighlightInv (ControllerState.initial editor)) ∧
    (HighlightInv st → HighlightInv (st.decorateLine range)) ∧
    (HighlightInv st → HighlightInv st.clearDecorations) ∧
    (HighlightInv st → HighlightInv st.run) ∧
    (HighlightInv st → HighlightInv (st.onClose canceled)) ∧
    (HighlightInv st → (st.decorateLine range).rangeHighlightDecorationId =
      some st.editor.nextDecorationId) ∧
    st.clearDecorations.rangeHighlightDecorationId = none ∧
    (HighlightInv st → ∀ i, st.rangeHighlightDecorationId = some i →
      ∀ r, (i, r) ∉ (st.decorateLine range).editor.decorations) := by
  refine ⟨fun he => ?_, highlightInv_decorateLine st range,
    highlightInv_clearDecorations st, highlightInv_run st,
    highlightInv_onClose st canceled, fun h => ?_, clearDecorations_rid st,
    fun h i hi r => ?_⟩
  · simp [HighlightInv, ControllerState.initial, he]
  · simp [ControllerState.decorateLine, EditorState.deltaDecorations,
      range_one_eq]
  · unfold HighlightInv at h
    rw [hi] at h
    obtain ⟨⟨r0, hdec⟩, hlt⟩ := h
    intro hmem
    simp [ControllerState.decorateLine, EditorState.deltaDecorations, hi,
      hdec, range_one_eq] at hmem
    obtain ⟨h1, -⟩ := hmem
    omega

end QuickOpen

namespace QuickOpen

/-- C10 witness: the invariant holds after decorating a line from the
initial state of a concrete editor. -/
theorem quickOpen_single_highlight_decoration_witness :
    HighlightInv ((ControllerState.initial exEditor).decorateLine 3) :=
  (quickOpen_single_highlight_decoration exEditor
      (ControllerState.initial exEditor) 3 true).2.1
    ((quickOpen_single_highlight_decoration exEditor
      (ControllerState.initial exEditor) 3 true).1 rfl)

end QuickOpen
